import Mathlib

/-!
Shallow embedding of the LintAI assertion evaluation and scoring engine
(`src/dist/index.js`, function `run`, lines 33-71).

JavaScript numbers are modelled as rationals (`ℚ`); `undefined` fields are
modelled with `Option`.  The JavaScript truthiness test `x || d` on a numeric
`x` is modelled explicitly: `0` (and an absent value) falls back to the
default `d`.  Strings are Lean `String`s; `output.length` is the character
count.  The call `new RegExp(pattern, 'i').test(output)` is a platform
builtin, not code of this repository, so the evaluator is parametrised by an
oracle `rtest : String → String → Bool` standing for that test; for literal
(metacharacter-free) patterns the oracle is instantiated with case-insensitive
substring search, which is exactly what the builtin computes on such patterns.
-/

namespace LintAI

/-- The `params` object of one assertion (`assertion.params` in the source).
Only the three keys the engine reads are modelled. -/
structure Params where
  max_chars : Option ℚ
  text : Option String
  pattern : Option String

/-- One configured assertion (`assertion` in the source loop, line 34). -/
structure Assertion where
  name : String
  type : String
  params : Option Params
  weight : Option ℚ

/-- The record pushed onto `results` (source lines 57-62). -/
structure AssertionResult where
  name : String
  passed : Bool
  message : String
  weight : ℚ

/-- The fields of the overall report (source lines 70-76). -/
structure Report where
  score : Int
  passed : Bool
  failedCount : Nat
  results : List AssertionResult

/-- `assertion.weight || 1.0` (source lines 35 and 69): an absent weight or
the number `0` falls back to `1.0`; any other number is used as given. -/
def effectiveWeight (w : Option ℚ) : ℚ :=
  match w with
  | none => 1
  | some q => if q = 0 then 1 else q

/-- `assertion.params?.max_chars || 1000` (source line 40): the limit is
`1000` when `params` is absent, `max_chars` is absent, or `max_chars` is `0`. -/
def maxCharsOf (p : Option Params) : ℚ :=
  match p with
  | none => 1000
  | some pp =>
    match pp.max_chars with
    | none => 1000
    | some q => if q = 0 then 1000 else q

/-- `assertion.params?.text` (source line 44). -/
def textOf (p : Option Params) : Option String :=
  p.bind Params.text

/-- `assertion.params?.pattern` (source line 50). -/
def patternOf (p : Option Params) : Option String :=
  p.bind Params.pattern

/-- `leadMatch hay needle` holds when `needle` appears at the start of `hay`. -/
def leadMatch : List Char → List Char → Bool
  | _, [] => true
  | [], _ :: _ => false
  | a :: as, b :: bs => a = b && leadMatch as bs

/-- `subMatch hay needle` holds when `needle` appears contiguously anywhere
inside `hay`. -/
def subMatch : List Char → List Char → Bool
  | [], needle => needle.isEmpty
  | a :: as, needle => leadMatch (a :: as) needle || subMatch as needle

/-- `output.includes(required)` (source line 45): literal, case-sensitive
substring containment. -/
def jsIncludes (s t : String) : Bool :=
  subMatch s.data t.data

/-- ASCII lowercasing of one character, as JavaScript case-insensitive
matching applies it to ASCII letters. -/
def lowerChar (c : Char) : Char :=
  if 65 ≤ c.toNat ∧ c.toNat ≤ 90 then Char.ofNat (c.toNat + 32) else c

/-- Modelled from the spec: `new RegExp(pattern, 'i').test(output)` is a
JavaScript builtin not present in the repository; on a literal pattern (one
with no regular-expression metacharacters, such as `"secret"`) the
case-insensitive test is case-insensitive substring search. -/
def litTestI (pat output : String) : Bool :=
  subMatch (output.data.map lowerChar) (pat.data.map lowerChar)

/-- The body of the `for` loop (source lines 35-62): evaluate one assertion
against the output, producing the record pushed onto `results`.  `rtest`
stands for `(p, o) ↦ new RegExp(p, 'i').test(o)`. -/
def evalAssertion (rtest : String → String → Bool) (a : Assertion)
    (output : String) : AssertionResult :=
  if a.type = "MAX_LENGTH" ∧ (output.length : ℚ) > maxCharsOf a.params then
    { name := a.name, passed := false,
      message := "Output too long: " ++ toString output.length ++ " chars",
      weight := effectiveWeight a.weight }
  else if a.type = "CONTAINS_TEXT" then
    match textOf a.params with
    | some t =>
      if t ≠ "" ∧ jsIncludes output t = false then
        { name := a.name, passed := false,
          message := "Missing required text: \"" ++ t ++ "\"",
          weight := effectiveWeight a.weight }
      else
        { name := a.name, passed := true, message := "Passed",
          weight := effectiveWeight a.weight }
    | none =>
      { name := a.name, passed := true, message := "Passed",
        weight := effectiveWeight a.weight }
  else if a.type = "NO_PATTERN" then
    match patternOf a.params with
    | some p =>
      if p ≠ "" ∧ rtest p output = true then
        { name := a.name, passed := false,
          message := "Output contains forbidden pattern",
          weight := effectiveWeight a.weight }
      else
        { name := a.name, passed := true, message := "Passed",
          weight := effectiveWeight a.weight }
    | none =>
      { name := a.name, passed := true, message := "Passed",
        weight := effectiveWeight a.weight }
  else
    { name := a.name, passed := true, message := "Passed",
      weight := effectiveWeight a.weight }

/-- The loop accumulator: `score` before the percentage conversion (the sum of
earned weights, line 65), `failedCount` (line 64) and `results` (line 57). -/
structure RunAcc where
  earned : ℚ
  failed : Nat
  results : List AssertionResult

/-- One iteration of the `for` loop over `assertions` (source lines 34-66). -/
def stepAssertion (rtest : String → String → Bool) (output : String)
    (acc : RunAcc) (a : Assertion) : RunAcc :=
  let r := evalAssertion rtest a output
  { earned := acc.earned + (if r.passed then r.weight else 0),
    failed := acc.failed + (if r.passed then 0 else 1),
    results := acc.results ++ [r] }

/-- `Math.round(x)` on a rational: round to the nearest integer, half up
(source line 70). -/
def jsRound (q : ℚ) : Int :=
  Int.floor (q + 1 / 2)

/-- The validation engine (source lines 33-71): the loop over `assertions`,
the `totalWeight` reduction (line 69), the percentage score (line 70) and the
overall pass decision (line 71). -/
def runValidation (rtest : String → String → Bool)
    (assertions : List Assertion) (output : String) (threshold : ℚ) : Report :=
  let acc := assertions.foldl (stepAssertion rtest output) ⟨0, 0, []⟩
  let totalWeight := assertions.foldl (fun s a => s + effectiveWeight a.weight) 0
  let score : Int :=
    if 0 < totalWeight then jsRound (acc.earned / totalWeight * 100) else 0
  { score := score,
    passed := decide (threshold ≤ (score : ℚ)) && decide (acc.failed = 0),
    failedCount := acc.failed,
    results := acc.results }

/-- The per-assertion results, as a list comprehension. -/
def resultsSpec (rtest : String → String → Bool) (assertions : List Assertion)
    (output : String) : List AssertionResult :=
  assertions.map (fun a => evalAssertion rtest a output)

/-- `earnedWeight = sum(weight for r in results if r.passed)`. -/
def earnedWeightSpec (rtest : String → String → Bool)
    (assertions : List Assertion) (output : String) : ℚ :=
  (((resultsSpec rtest assertions output).filter (fun r => r.passed)).map
    AssertionResult.weight).sum

/-- `failedCount = count(r for r in results if not r.passed)`. -/
def failedCountSpec (rtest : String → String → Bool)
    (assertions : List Assertion) (output : String) : Nat :=
  ((resultsSpec rtest assertions output).filter (fun r => r.passed = false)).length

/-- `totalWeight = sum(a.weight || 1.0 for a in assertions)` (source line 69). -/
def totalWeightSpec (assertions : List Assertion) : ℚ :=
  (assertions.map (fun a => effectiveWeight a.weight)).sum

/-! ### Helper lemmas -/

theorem leadMatch_iff (ys xs : List Char) :
    leadMatch xs ys = true ↔ ∃ rest, xs = ys ++ rest := by
  induction ys generalizing xs with
  | nil =>
    cases xs <;> simp [leadMatch]
  | cons b bs ih =>
    cases xs with
    | nil => simp [leadMatch]
    | cons a as =>
      simp only [leadMatch, Bool.and_eq_true, decide_eq_true_eq, ih,
        List.cons_append, List.cons.injEq]
      constructor
      · rintro ⟨hab, rest, hrest⟩
        exact ⟨rest, hab, hrest⟩
      · rintro ⟨rest, hab, hrest⟩
        exact ⟨hab, rest, hrest⟩

theorem subMatch_iff (xs ys : List Char) :
    subMatch xs ys = true ↔ ∃ pre post, xs = pre ++ (ys ++ post) := by
  induction xs with
  | nil =>
    simp only [subMatch, List.isEmpty_iff]
    constructor
    · intro h; exact ⟨[], [], by simp [h]⟩
    · rintro ⟨pre, post, h⟩
      rcases List.append_eq_nil.mp h.symm with ⟨-, h2⟩
      exact (List.append_eq_nil.mp h2).1
  | cons a as ih =>
    simp only [subMatch, Bool.or_eq_true, leadMatch_iff, ih]
    constructor
    · rintro (⟨rest, hrest⟩ | ⟨pre, post, hpp⟩)
      · exact ⟨[], rest, by simp [hrest]⟩
      · exact ⟨a :: pre, post, by simp [hpp]⟩
    · rintro ⟨pre, post, hpp⟩
      cases pre with
      | nil => exact Or.inl ⟨post, by simpa using hpp⟩
      | cons c cs =>
        refine Or.inr ⟨cs, post, ?_⟩
        simp only [List.cons_append, List.cons.injEq] at hpp
        exact hpp.2

theorem jsIncludes_iff (s t : String) :
    jsIncludes s t = true ↔ ∃ pre post, s.data = pre ++ (t.data ++ post) :=
  subMatch_iff s.data t.data

theorem evalAssertion_weight (rtest : String → String → Bool) (a : Assertion)
    (output : String) :
    (evalAssertion rtest a output).weight = effectiveWeight a.weight := by
  unfold evalAssertion
  repeat' split
  all_goals rfl

theorem resultsSpec_cons (rtest : String → String → Bool) (a : Assertion)
    (as : List Assertion) (output : String) :
    resultsSpec rtest (a :: as) output =
      evalAssertion rtest a output :: resultsSpec rtest as output := rfl

theorem earnedWeightSpec_cons (rtest : String → String → Bool) (a : Assertion)
    (as : List Assertion) (output : String) :
    earnedWeightSpec rtest (a :: as) output =
      (if (evalAssertion rtest a output).passed then
        (evalAssertion rtest a output).weight else 0) +
      earnedWeightSpec rtest as output := by
  unfold earnedWeightSpec
  rw [resultsSpec_cons, List.filter_cons]
  by_cases h : (evalAssertion rtest a output).passed <;> simp [h]

theorem failedCountSpec_cons (rtest : String → String → Bool) (a : Assertion)
    (as : List Assertion) (output : String) :
    failedCountSpec rtest (a :: as) output =
      (if (evalAssertion rtest a output).passed then 0 else 1) +
      failedCountSpec rtest as output := by
  unfold failedCountSpec
  rw [resultsSpec_cons, List.filter_cons]
  by_cases h : (evalAssertion rtest a output).passed
  · simp [h]
  · simp [h]
    omega

theorem foldl_stepAssertion (rtest : String → String → Bool) (output : String)
    (assertions : List Assertion) : ∀ acc : RunAcc,
    assertions.foldl (stepAssertion rtest output) acc =
      { earned := acc.earned + earnedWeightSpec rtest assertions output,
        failed := acc.failed + failedCountSpec rtest assertions output,
        results := acc.results ++ resultsSpec rtest assertions output } := by
  induction assertions with
  | nil =>
    intro acc
    simp [earnedWeightSpec, failedCountSpec, resultsSpec]
  | cons a as ih =>
    intro acc
    rw [List.foldl_cons, ih]
    rw [earnedWeightSpec_cons, failedCountSpec_cons, resultsSpec_cons]
    simp only [stepAssertion]
    congr 1
    · ring
    · omega
    · simp

theorem foldl_effectiveWeight (assertions : List Assertion) : ∀ s : ℚ,
    assertions.foldl (fun s a => s + effectiveWeight a.weight) s =
      s + totalWeightSpec assertions := by
  induction assertions with
  | nil => intro s; simp [totalWeightSpec]
  | cons a as ih =>
    intro s
    rw [List.foldl_cons, ih]
    simp [totalWeightSpec]
    ring

theorem runValidation_score (rtest : String → String → Bool)
    (assertions : List Assertion) (output : String) (threshold : ℚ) :
    (runValidation rtest assertions output threshold).score =
      if 0 < totalWeightSpec assertions then
        jsRound (earnedWeightSpec rtest assertions output /
          totalWeightSpec assertions * 100)
      else 0 := by
  unfold runValidation
  rw [foldl_stepAssertion, foldl_effectiveWeight]
  simp

theorem runValidation_failedCount (rtest : String → String → Bool)
    (assertions : List Assertion) (output : String) (threshold : ℚ) :
    (runValidation rtest assertions output threshold).failedCount =
      failedCountSpec rtest assertions output := by
  unfold runValidation
  rw [foldl_stepAssertion]
  simp

theorem runValidation_results (rtest : String → String → Bool)
    (assertions : List Assertion) (output : String) (threshold : ℚ) :
    (runValidation rtest assertions output threshold).results =
      resultsSpec rtest assertions output := by
  unfold runValidation
  rw [foldl_stepAssertion]
  simp

theorem evalAssertion_maxLength (rtest : String → String → Bool) (a : Assertion)
    (output : String) (h : a.type = "MAX_LENGTH") :
    ((evalAssertion rtest a output).passed = true ↔
      (output.length : ℚ) ≤ maxCharsOf a.params) ∧
    ((evalAssertion rtest a output).passed = false →
      (evalAssertion rtest a output).message =
        "Output too long: " ++ toString output.length ++ " chars") := by
  unfold evalAssertion
  by_cases hlen : (output.length : ℚ) > maxCharsOf a.params
  · rw [if_pos ⟨h, hlen⟩]
    refine ⟨?_, fun _ => rfl⟩
    simp only [Bool.false_eq_true, false_iff, not_le]
    exact hlen
  · rw [if_neg (fun hc => hlen hc.2),
      if_neg (by rw [h]; intro hc; exact absurd hc (by decide)),
      if_neg (by rw [h]; intro hc; exact absurd hc (by decide))]
    refine ⟨?_, ?_⟩
    · simp only [true_iff]
      exact le_of_not_lt hlen
    · intro hc
      exact absurd hc (by simp)

theorem evalAssertion_containsText (rtest : String → String → Bool)
    (a : Assertion) (output : String) (h : a.type = "CONTAINS_TEXT") :
    ((evalAssertion rtest a output).passed = true ↔
      ∀ t, textOf a.params = some t → t = "" ∨ jsIncludes output t = true) ∧
    (∀ t, textOf a.params = some t → (evalAssertion rtest a output).passed = false →
      (evalAssertion rtest a output).message =
        "Missing required text: \"" ++ t ++ "\"") := by
  unfold evalAssertion
  rw [if_neg (by rw [h]; intro hc; exact absurd hc.1 (by decide)), if_pos h]
  cases htext : textOf a.params with
  | none => simp
  | some t =>
    dsimp only
    by_cases hcond : t ≠ "" ∧ jsIncludes output t = false
    · rw [if_pos hcond]
      obtain ⟨ht1, ht2⟩ := hcond
      constructor
      · simp [ht1, ht2]
      · intro t' ht' _
        obtain rfl : t = t' := by injection ht'
        rfl
    · rw [if_neg hcond]
      push_neg at hcond
      constructor
      · simp only [true_iff]
        intro t' ht'
        obtain rfl : t = t' := by injection ht'
        by_cases he : t = ""
        · exact Or.inl he
        · exact Or.inr (by simpa using hcond he)
      · intro t' _ hc
        exact absurd hc (by simp)

theorem evalAssertion_noPattern (rtest : String → String → Bool)
    (a : Assertion) (output : String) (h : a.type = "NO_PATTERN") :
    ((evalAssertion rtest a output).passed = true ↔
      ∀ p, patternOf a.params = some p → p = "" ∨ rtest p output = false) ∧
    (∀ p, patternOf a.params = some p → (evalAssertion rtest a output).passed = false →
      (evalAssertion rtest a output).message =
        "Output contains forbidden pattern") := by
  unfold evalAssertion
  rw [if_neg (by rw [h]; intro hc; exact absurd hc.1 (by decide)),
    if_neg (by rw [h]; intro hc; exact absurd hc (by decide)), if_pos h]
  cases hpat : patternOf a.params with
  | none => simp
  | some p =>
    dsimp only
    by_cases hcond : p ≠ "" ∧ rtest p output = true
    · rw [if_pos hcond]
      obtain ⟨hp1, hp2⟩ := hcond
      constructor
      · simp [hp1, hp2]
      · intro p' hp' _
        obtain rfl : p = p' := by injection hp'
        rfl
    · rw [if_neg hcond]
      push_neg at hcond
      constructor
      · simp only [true_iff]
        intro p' hp'
        obtain rfl : p = p' := by injection hp'
        by_cases he : p = ""
        · exact Or.inl he
        · exact Or.inr (by simpa using hcond he)
      · intro p' _ hc
        exact absurd hc (by simp)

theorem evalAssertion_unknown (rtest : String → String → Bool) (a : Assertion)
    (output : String) (h1 : a.type ≠ "MAX_LENGTH") (h2 : a.type ≠ "CONTAINS_TEXT")
    (h3 : a.type ≠ "NO_PATTERN") :
    evalAssertion rtest a output =
      { name := a.name, passed := true, message := "Passed",
        weight := effectiveWeight a.weight } := by
  unfold evalAssertion
  rw [if_neg (fun hc => h1 hc.1), if_neg h2, if_neg h3]

theorem totalWeightSpec_cons (a : Assertion) (as : List Assertion) :
    totalWeightSpec (a :: as) = effectiveWeight a.weight + totalWeightSpec as := by
  simp [totalWeightSpec]

theorem totalWeightSpec_append (as : List Assertion) (a : Assertion) :
    totalWeightSpec (as ++ [a]) = totalWeightSpec as + effectiveWeight a.weight := by
  simp [totalWeightSpec]

theorem earnedWeightSpec_append_passing (rtest : String → String → Bool)
    (as : List Assertion) (a : Assertion) (output : String)
    (h : (evalAssertion rtest a output).passed = true) :
    earnedWeightSpec rtest (as ++ [a]) output =
      earnedWeightSpec rtest as output + effectiveWeight a.weight := by
  unfold earnedWeightSpec resultsSpec
  simp [List.filter_append, List.filter_cons, h, evalAssertion_weight]

theorem totalWeightSpec_nonneg (as : List Assertion)
    (h : ∀ b ∈ as, 0 ≤ effectiveWeight b.weight) :
    0 ≤ totalWeightSpec as := by
  unfold totalWeightSpec
  apply List.sum_nonneg
  intro x hx
  simp only [List.mem_map] at hx
  obtain ⟨b, hb, rfl⟩ := hx
  exact h b hb

theorem earnedWeightSpec_nonneg (rtest : String → String → Bool)
    (as : List Assertion) (output : String)
    (h : ∀ b ∈ as, 0 ≤ effectiveWeight b.weight) :
    0 ≤ earnedWeightSpec rtest as output := by
  induction as with
  | nil => simp [earnedWeightSpec, resultsSpec]
  | cons a as ih =>
    rw [earnedWeightSpec_cons, evalAssertion_weight]
    have ha := h a (List.mem_cons_self a as)
    have ih' := ih (fun b hb => h b (List.mem_cons_of_mem a hb))
    split <;> linarith

theorem earnedWeightSpec_le_total (rtest : String → String → Bool)
    (as : List Assertion) (output : String)
    (h : ∀ b ∈ as, 0 ≤ effectiveWeight b.weight) :
    earnedWeightSpec rtest as output ≤ totalWeightSpec as := by
  induction as with
  | nil => simp [earnedWeightSpec, resultsSpec, totalWeightSpec]
  | cons a as ih =>
    rw [earnedWeightSpec_cons, totalWeightSpec_cons, evalAssertion_weight]
    have ha := h a (List.mem_cons_self a as)
    have ih' := ih (fun b hb => h b (List.mem_cons_of_mem a hb))
    split <;> linarith

theorem jsRound_mono {x y : ℚ} (h : x ≤ y) : jsRound x ≤ jsRound y := by
  unfold jsRound
  exact Int.floor_le_floor (by linarith)

theorem runValidation_passed (rtest : String → String → Bool)
    (assertions : List Assertion) (output : String) (threshold : ℚ) :
    (runValidation rtest assertions output threshold).passed =
      (decide (threshold ≤ ((runValidation rtest assertions output threshold).score : ℚ)) &&
       decide ((runValidation rtest assertions output threshold).failedCount = 0)) := rfl

/-! ### Claim theorems -/

/-- C1: the overall passed flag is true iff the computed score meets the
threshold and the count of failed assertions is zero; in particular a run
whose score meets the threshold but with at least one failed assertion is not
passed. -/
theorem c1_passed_conjunction :
    (∀ (rtest : String → String → Bool) (as : List Assertion) (out : String) (th : ℚ),
      (runValidation rtest as out th).passed = true ↔
        (th ≤ ((runValidation rtest as out th).score : ℚ) ∧
         (runValidation rtest as out th).failedCount = 0)) ∧
    (∀ (rtest : String → String → Bool) (as : List Assertion) (out : String) (th : ℚ),
      th ≤ ((runValidation rtest as out th).score : ℚ) →
      (runValidation rtest as out th).failedCount ≠ 0 →
      (runValidation rtest as out th).passed = false) := by
  constructor
  · intro rtest as out th
    rw [runValidation_passed]
    simp
  · intro rtest as out th hs hf
    rw [runValidation_passed]
    simp [hf]

/-- C1 witness: a config whose weighted score is 75 against threshold 70 but
with one failed assertion is not passed overall. -/
theorem c1_passed_conjunction_witness :
    (runValidation litTestI
      [⟨"w1", "X", none, some 3⟩,
       ⟨"txt", "CONTAINS_TEXT", some ⟨none, some "zzz", none⟩, some 1⟩]
      "hi" 70).passed = false :=
  c1_passed_conjunction.2 litTestI
    [⟨"w1", "X", none, some 3⟩,
     ⟨"txt", "CONTAINS_TEXT", some ⟨none, some "zzz", none⟩, some 1⟩]
    "hi" 70
    (by
      have h1 : evalAssertion litTestI ⟨"w1", "X", none, some 3⟩ "hi" =
          ⟨"w1", true, "Passed", 3⟩ := by
        rw [evalAssertion_unknown _ _ _ (by decide) (by decide) (by decide)]
        norm_num [effectiveWeight]
      have h2 : (evalAssertion litTestI
          ⟨"txt", "CONTAINS_TEXT", some ⟨none, some "zzz", none⟩, some 1⟩
          "hi").passed = false := by decide
      rw [runValidation_score,
        show totalWeightSpec
          [⟨"w1", "X", none, some 3⟩,
           ⟨"txt", "CONTAINS_TEXT", some ⟨none, some "zzz", none⟩, some 1⟩] = 4 by
            norm_num [totalWeightSpec, effectiveWeight],
        earnedWeightSpec_cons, earnedWeightSpec_cons, h1, h2]
      norm_num [earnedWeightSpec, resultsSpec, jsRound])
    (by
      have h1p : (evalAssertion litTestI ⟨"w1", "X", none, some 3⟩
          "hi").passed = true := by decide
      have h2 : (evalAssertion litTestI
          ⟨"txt", "CONTAINS_TEXT", some ⟨none, some "zzz", none⟩, some 1⟩
          "hi").passed = false := by decide
      rw [runValidation_failedCount, failedCountSpec_cons, failedCountSpec_cons,
        h1p, h2]
      simp [failedCountSpec, resultsSpec])

/-- C2: the score is the earned share of the total weight as a percentage,
rounded to the nearest integer half-up, and 0 when the total weight is not
positive; `jsRound` agrees with the mathematical nearest-integer rounding
(half up). -/
theorem c2_score_formula :
    (∀ (rtest : String → String → Bool) (as : List Assertion) (out : String) (th : ℚ),
      (runValidation rtest as out th).score =
        if 0 < totalWeightSpec as then
          jsRound (earnedWeightSpec rtest as out / totalWeightSpec as * 100)
        else 0) ∧
    (∀ q : ℚ, jsRound q = round q) := by
  refine ⟨runValidation_score, ?_⟩
  intro q
  rw [round_eq]
  rfl

/-- C3: running with an empty assertion list is a defined (non-error) run with
score 0, no failures, an empty result list, and overall pass exactly when the
threshold is at most 0. -/
theorem c3_empty_assertions :
    ∀ (rtest : String → String → Bool) (out : String) (th : ℚ),
      (runValidation rtest [] out th).score = 0 ∧
      (runValidation rtest [] out th).failedCount = 0 ∧
      ((runValidation rtest [] out th).passed = true ↔ th ≤ 0) ∧
      (runValidation rtest [] out th).results = [] := by
  intro rtest out th
  have h0 : (runValidation rtest [] out th).score = 0 := rfl
  have hf : (runValidation rtest [] out th).failedCount = 0 := rfl
  refine ⟨h0, hf, ?_, rfl⟩
  rw [runValidation_passed, h0, hf]
  simp

/-- C4 counterexample: an assertion configured with the weight 0 — a
non-negative number — is scored with weight 1, not its configured weight. -/
theorem c4_weight_zero_counterexample :
    (evalAssertion litTestI ⟨"z", "X", none, some 0⟩ "out").weight = 1 ∧
    (1 : ℚ) ≠ 0 :=
  ⟨rfl, by norm_num⟩

/-- C4 amended: the weight used in scoring (and copied into the result) is the
configured weight whenever that weight is a nonzero number, and defaults to
1.0 when the weight is omitted or is the (falsy) number 0. -/
theorem c4_weight_defaulting :
    (∀ (rtest : String → String → Bool) (a : Assertion) (out : String),
      (evalAssertion rtest a out).weight = effectiveWeight a.weight) ∧
    (∀ q : ℚ, q ≠ 0 → effectiveWeight (some q) = q) ∧
    effectiveWeight none = 1 ∧ effectiveWeight (some 0) = 1 := by
  refine ⟨evalAssertion_weight, ?_, rfl, by norm_num [effectiveWeight]⟩
  intro q hq
  simp [effectiveWeight, hq]

/-- C4 witness: the nonzero configured weight 5 is used as-is. -/
theorem c4_weight_defaulting_witness :
    effectiveWeight (some 5) = 5 :=
  c4_weight_defaulting.2.1 5 (by norm_num)

/-- C5 counterexample: with `max_chars` configured as the number 0 and the
one-character output "a", the claim predicts failure (1 > 0) but the evaluator
passes, because the falsy 0 falls back to the default limit of 1000. -/
theorem c5_max_chars_zero_counterexample :
    (evalAssertion litTestI ⟨"len", "MAX_LENGTH", some ⟨some 0, none, none⟩, some 1⟩
      "a").passed = true ∧
    ¬ ((("a" : String).length : ℚ) ≤ 0) :=
  ⟨rfl, by norm_num [String.length]⟩

/-- C5 amended: a MAX_LENGTH assertion passes exactly when the output length
is at most the effective limit; a nonzero configured `max_chars` is that
limit, an absent one defaults to 1000 (the configured number 0 also falls back
to 1000, see C10); on failure the message reports the output length. -/
theorem c5_max_length_semantics :
    (∀ (rtest : String → String → Bool) (a : Assertion) (out : String),
      a.type = "MAX_LENGTH" →
      (((evalAssertion rtest a out).passed = true ↔
         (out.length : ℚ) ≤ maxCharsOf a.params) ∧
       ((evalAssertion rtest a out).passed = false →
         (evalAssertion rtest a out).message =
           "Output too long: " ++ toString out.length ++ " chars"))) ∧
    (∀ (q : ℚ) (t p : Option String), q ≠ 0 →
      maxCharsOf (some ⟨some q, t, p⟩) = q) ∧
    (∀ t p : Option String, maxCharsOf (some ⟨none, t, p⟩) = 1000) ∧
    maxCharsOf none = 1000 := by
  refine ⟨evalAssertion_maxLength, ?_, fun t p => rfl, rfl⟩
  intro q t p hq
  simp [maxCharsOf, hq]

/-- C5 witness: with limit 10 the five-character output "hello" passes, and
the nonzero limit 10 is used as configured. -/
theorem c5_max_length_semantics_witness :
    ((evalAssertion litTestI ⟨"len", "MAX_LENGTH", some ⟨some 10, none, none⟩, some 1⟩
      "hello").passed = true ↔
      ((("hello" : String).length : ℚ) ≤ maxCharsOf (some ⟨some 10, none, none⟩))) ∧
    maxCharsOf (some ⟨some 10, none, none⟩) = 10 :=
  ⟨(c5_max_length_semantics.1 litTestI
      ⟨"len", "MAX_LENGTH", some ⟨some 10, none, none⟩, some 1⟩ "hello" rfl).1,
   c5_max_length_semantics.2.1 10 none none (by norm_num)⟩

/-- C6: CONTAINS_TEXT passes when text is absent or empty, and otherwise
passes exactly when the text occurs literally (case-sensitively, with no
trimming or normalization) as a contiguous substring of the output; on failure
the message quotes the missing text. -/
theorem c6_contains_text_semantics :
    (∀ (rtest : String → String → Bool) (a : Assertion) (out : String),
      a.type = "CONTAINS_TEXT" →
      ((evalAssertion rtest a out).passed = true ↔
        ∀ t, textOf a.params = some t →
          t = "" ∨ ∃ pre post, out.data = pre ++ (t.data ++ post))) ∧
    (∀ (rtest : String → String → Bool) (a : Assertion) (out : String) (t : String),
      a.type = "CONTAINS_TEXT" → textOf a.params = some t →
      (evalAssertion rtest a out).passed = false →
      (evalAssertion rtest a out).message = "Missing required text: \"" ++ t ++ "\"") := by
  constructor
  · intro rtest a out h
    rw [(evalAssertion_containsText rtest a out h).1]
    constructor
    · intro hx t ht
      rcases hx t ht with he | hinc
      · exact Or.inl he
      · exact Or.inr ((jsIncludes_iff out t).mp hinc)
    · intro hx t ht
      rcases hx t ht with he | hsub
      · exact Or.inl he
      · exact Or.inr ((jsIncludes_iff out t).mpr hsub)
  · intro rtest a out t h ht
    exact (evalAssertion_containsText rtest a out h).2 t ht

/-- C6 witness: the required text "hello" is missing from "nohel", so the
assertion fails with the quoted message. -/
theorem c6_contains_text_semantics_witness :
    (evalAssertion litTestI
      ⟨"txt", "CONTAINS_TEXT", some ⟨none, some "hello", none⟩, some 1⟩
      "nohel").message = "Missing required text: \"hello\"" :=
  c6_contains_text_semantics.2 litTestI
    ⟨"txt", "CONTAINS_TEXT", some ⟨none, some "hello", none⟩, some 1⟩
    "nohel" "hello" rfl rfl (by decide)

/-- C7: NO_PATTERN passes when the pattern is absent or empty and otherwise
passes exactly when the case-insensitive pattern test does not match the
output; in particular the literal pattern "secret" fails against the output
"SECRET key". -/
theorem c7_no_pattern_semantics :
    (∀ (rtest : String → String → Bool) (a : Assertion) (out : String),
      a.type = "NO_PATTERN" →
      ((evalAssertion rtest a out).passed = true ↔
        ∀ p, patternOf a.params = some p → p = "" ∨ rtest p out = false)) ∧
    (evalAssertion litTestI
      ⟨"pat", "NO_PATTERN", some ⟨none, none, some "secret"⟩, some 1⟩
      "SECRET key").passed = false := by
  constructor
  · intro rtest a out h
    exact (evalAssertion_noPattern rtest a out h).1
  · decide

/-- C7 witness: a NO_PATTERN assertion whose pattern "zz" does not occur in
"clean" passes. -/
theorem c7_no_pattern_semantics_witness :
    (evalAssertion litTestI
      ⟨"pat", "NO_PATTERN", some ⟨none, none, some "zz"⟩, some 1⟩
      "clean").passed = true :=
  (c7_no_pattern_semantics.1 litTestI
    ⟨"pat", "NO_PATTERN", some ⟨none, none, some "zz"⟩, some 1⟩ "clean" rfl).mpr
    (by
      intro p hp
      obtain rfl : "zz" = p := by injection hp
      exact Or.inr (by decide))

/-- A 1001-character output used to exercise the default MAX_LENGTH limit. -/
def longOutput : String := String.mk (List.replicate 1001 'a')

/-- C8 counterexample: a MAX_LENGTH assertion with missing params does not
always pass: against a 1001-character output it fails on the default limit of
1000 that stands in for the absent `max_chars`. -/
theorem c8_missing_params_counterexample :
    (evalAssertion litTestI ⟨"len", "MAX_LENGTH", none, some 1⟩ longOutput).passed
      = false := by
  have h := (evalAssertion_maxLength litTestI
    ⟨"len", "MAX_LENGTH", none, some 1⟩ longOutput rfl).1
  have hlen : longOutput.length = 1001 := by
    show (List.replicate 1001 'a').length = 1001
    rw [List.length_replicate]
  have hgt : ¬ ((longOutput.length : ℚ) ≤
      maxCharsOf (⟨"len", "MAX_LENGTH", none, some 1⟩ : Assertion).params) := by
    rw [hlen]
    norm_num [maxCharsOf]
  cases hp : (evalAssertion litTestI
      ⟨"len", "MAX_LENGTH", none, some 1⟩ longOutput).passed
  · rfl
  · exact absurd (h.mp hp) hgt

/-- C8 amended: an assertion whose type is none of the three recognized kinds
always passes with message "Passed" and contributes its weight to the earned
weight; a missing params object makes CONTAINS_TEXT and NO_PATTERN pass, while
MAX_LENGTH falls back to its default limit of 1000 and can still fail. -/
theorem c8_unknown_type_noop :
    (∀ (rtest : String → String → Bool) (a : Assertion) (out : String),
      a.type ≠ "MAX_LENGTH" → a.type ≠ "CONTAINS_TEXT" → a.type ≠ "NO_PATTERN" →
      (evalAssertion rtest a out).passed = true ∧
      (evalAssertion rtest a out).message = "Passed" ∧
      (∀ as, earnedWeightSpec rtest (as ++ [a]) out =
        earnedWeightSpec rtest as out + effectiveWeight a.weight)) ∧
    (∀ (rtest : String → String → Bool) (a : Assertion) (out : String),
      a.params = none → (a.type = "CONTAINS_TEXT" ∨ a.type = "NO_PATTERN") →
      (evalAssertion rtest a out).passed = true) ∧
    (∀ (rtest : String → String → Bool) (a : Assertion) (out : String),
      a.params = none → a.type = "MAX_LENGTH" →
      ((evalAssertion rtest a out).passed = true ↔ (out.length : ℚ) ≤ 1000)) := by
  refine ⟨?_, ?_, ?_⟩
  · intro rtest a out h1 h2 h3
    have he := evalAssertion_unknown rtest a out h1 h2 h3
    refine ⟨by rw [he], by rw [he], ?_⟩
    intro as
    exact earnedWeightSpec_append_passing rtest as a out (by rw [he])
  · intro rtest a out hp ht
    rcases ht with ht | ht
    · rw [(evalAssertion_containsText rtest a out ht).1]
      intro t hsome
      rw [hp] at hsome
      exact absurd hsome (by simp [textOf])
    · rw [(evalAssertion_noPattern rtest a out ht).1]
      intro p hsome
      rw [hp] at hsome
      exact absurd hsome (by simp [patternOf])
  · intro rtest a out hp ht
    have h := (evalAssertion_maxLength rtest a out ht).1
    rw [hp] at h
    simpa [maxCharsOf] using h

/-- C8 witness: an assertion with the unrecognized type "FANCY_RULE" passes. -/
theorem c8_unknown_type_noop_witness :
    (evalAssertion litTestI ⟨"x", "FANCY_RULE", none, some 2⟩ "out").passed = true :=
  (c8_unknown_type_noop.1 litTestI ⟨"x", "FANCY_RULE", none, some 2⟩ "out"
    (by decide) (by decide) (by decide)).1

/-- C9 counterexample: with a negative-weight failing assertion present (the
code accepts any nonzero numeric weight as-is), appending one passing
assertion of weight 1 lowers the score from 250 to 200. -/
theorem c9_monotonicity_counterexample :
    (runValidation litTestI
      [⟨"a1", "X", none, some 5⟩,
       ⟨"a2", "CONTAINS_TEXT", some ⟨none, some "zzz", none⟩, some (-3)⟩,
       ⟨"a3", "X", none, some 1⟩] "hello" 70).score <
    (runValidation litTestI
      [⟨"a1", "X", none, some 5⟩,
       ⟨"a2", "CONTAINS_TEXT", some ⟨none, some "zzz", none⟩, some (-3)⟩]
      "hello" 70).score := by
  have h1 : evalAssertion litTestI ⟨"a1", "X", none, some 5⟩ "hello" =
      ⟨"a1", true, "Passed", 5⟩ := by
    rw [evalAssertion_unknown _ _ _ (by decide) (by decide) (by decide)]
    norm_num [effectiveWeight]
  have h2 : (evalAssertion litTestI
      ⟨"a2", "CONTAINS_TEXT", some ⟨none, some "zzz", none⟩, some (-3)⟩
      "hello").passed = false := by decide
  have h3 : evalAssertion litTestI ⟨"a3", "X", none, some 1⟩ "hello" =
      ⟨"a3", true, "Passed", 1⟩ := by
    rw [evalAssertion_unknown _ _ _ (by decide) (by decide) (by decide)]
    norm_num [effectiveWeight]
  rw [runValidation_score, runValidation_score,
    show totalWeightSpec
      [⟨"a1", "X", none, some 5⟩,
       ⟨"a2", "CONTAINS_TEXT", some ⟨none, some "zzz", none⟩, some (-3)⟩,
       ⟨"a3", "X", none, some 1⟩] = 3 by
        norm_num [totalWeightSpec, effectiveWeight],
    show totalWeightSpec
      [⟨"a1", "X", none, some 5⟩,
       ⟨"a2", "CONTAINS_TEXT", some ⟨none, some "zzz", none⟩, some (-3)⟩] = 2 by
        norm_num [totalWeightSpec, effectiveWeight],
    earnedWeightSpec_cons, earnedWeightSpec_cons, earnedWeightSpec_cons,
    earnedWeightSpec_cons, earnedWeightSpec_cons, h1, h2, h3]
  norm_num [earnedWeightSpec, resultsSpec, jsRound]

/-- C9 amended: provided every assertion's effective weight is nonnegative
(the data model requires nonnegative weights), appending one assertion that
passes against the output and has positive effective weight never decreases
the score. -/
theorem c9_score_monotone :
    ∀ (rtest : String → String → Bool) (as : List Assertion) (a : Assertion)
      (out : String) (th : ℚ),
      (∀ b ∈ as, 0 ≤ effectiveWeight b.weight) →
      (evalAssertion rtest a out).passed = true →
      0 < effectiveWeight a.weight →
      (runValidation rtest as out th).score ≤
        (runValidation rtest (as ++ [a]) out th).score := by
  intro rtest as a out th hw hp hpos
  rw [runValidation_score, runValidation_score,
    earnedWeightSpec_append_passing rtest as a out hp, totalWeightSpec_append]
  have h0t : 0 ≤ totalWeightSpec as := totalWeightSpec_nonneg as hw
  have het : earnedWeightSpec rtest as out ≤ totalWeightSpec as :=
    earnedWeightSpec_le_total rtest as out hw
  have h0e : 0 ≤ earnedWeightSpec rtest as out :=
    earnedWeightSpec_nonneg rtest as out hw
  set e := earnedWeightSpec rtest as out
  set t := totalWeightSpec as
  set w := effectiveWeight a.weight
  by_cases ht : 0 < t
  · rw [if_pos ht, if_pos (by linarith)]
    apply jsRound_mono
    have hdiv : e / t ≤ (e + w) / (t + w) := by
      rw [div_le_div_iff₀ ht (by linarith)]
      nlinarith
    exact mul_le_mul_of_nonneg_right hdiv (by norm_num)
  · rw [if_neg ht, if_pos (by linarith)]
    have hte : t = 0 := le_antisymm (not_lt.mp ht) h0t
    have hee : e = 0 := le_antisymm (hte ▸ het) h0e
    rw [hte, hee, zero_add, div_self (ne_of_gt hpos), one_mul]
    unfold jsRound
    exact Int.le_floor.mpr (by norm_num)

/-- C9 witness: appending a passing weight-1 assertion to a one-assertion
config with weight 2 does not decrease the score. -/
theorem c9_score_monotone_witness :
    (runValidation litTestI [⟨"b", "X", none, some 2⟩] "hi" 70).score ≤
    (runValidation litTestI ([⟨"b", "X", none, some 2⟩] ++ [⟨"c", "X", none, some 1⟩])
      "hi" 70).score :=
  c9_score_monotone litTestI [⟨"b", "X", none, some 2⟩] ⟨"c", "X", none, some 1⟩
    "hi" 70
    (by
      intro b hb
      rw [List.mem_singleton] at hb
      subst hb
      norm_num [effectiveWeight])
    (by decide)
    (by norm_num [effectiveWeight])

/-- C10: a MAX_LENGTH assertion whose `max_chars` is the number 0, or whose
params object is missing, uses the default limit 1000: the evaluator passes
exactly when the output has at most 1000 characters. -/
theorem c10_max_chars_zero_default :
    ∀ (rtest : String → String → Bool) (nm : String) (w : Option ℚ)
      (p : Option Params) (out : String),
      (p = none ∨ ∃ t pt, p = some ⟨some 0, t, pt⟩) →
      ((evalAssertion rtest ⟨nm, "MAX_LENGTH", p, w⟩ out).passed = true ↔
        (out.length : ℚ) ≤ 1000) := by
  intro rtest nm w p out hp
  have h := (evalAssertion_maxLength rtest ⟨nm, "MAX_LENGTH", p, w⟩ out rfl).1
  have hmc : maxCharsOf p = 1000 := by
    rcases hp with rfl | ⟨t, pt, rfl⟩
    · rfl
    · simp [maxCharsOf]
  rw [h]
  dsimp only
  rw [hmc]

/-- C10 witness: with `max_chars` configured as 0, the three-character output
"abc" passes against the 1000 default. -/
theorem c10_max_chars_zero_default_witness :
    (evalAssertion litTestI
      ⟨"len", "MAX_LENGTH", some ⟨some 0, none, none⟩, some 1⟩ "abc").passed = true :=
  (c10_max_chars_zero_default litTestI "len" (some 1) (some ⟨some 0, none, none⟩)
    "abc" (Or.inr ⟨none, none, rfl⟩)).mpr (by norm_num [String.length])

end LintAI
